import Mathlib

/-
Shallow embedding of lib/loader/JSLoader.js (node-haste): docblock tag
interpretation, the optional extraction pipeline, the javelin symbol
classifier fold, file-extension matching, and the post-process pass that
rewrites relative requiredModules entries.

JavaScript strings are Lean Strings; JS objects used as string-keyed sets
of true-valued flags are ordered key lists with object-key semantics
(insertion keeps first position, delete then re-add moves to the end).
Asynchronous callback invocations are modelled as an explicit list of
(invokedOnLaterTurn, descriptor) pairs, in invocation order.
-/

/-- Whitespace class of the JavaScript regexp escape backslash-s, restricted
to the characters that can occur in docblock tag values. -/
def isWsChar (c : Char) : Bool :=
  c = ' ' ∨ c = '\t' ∨ c = '\n' ∨ c = '\r' ∨ c = '\x0b' ∨ c = '\x0c'

/-- JavaScript `value.split(re)` where `re` matches a maximal nonempty
whitespace run: walks the characters, emitting the segment collected so far
when a run starts and skipping the rest of the run.  The `skipping` flag is
true while inside a whitespace run. -/
def splitWsAux : List Char → List Char → Bool → List (List Char)
  | [], cur, _ => [cur.reverse]
  | c :: rest, cur, skipping =>
    if isWsChar c then
      if skipping then splitWsAux rest cur true
      else cur.reverse :: splitWsAux rest [] true
    else splitWsAux rest (c :: cur) false

/-- JavaScript `value.split(/\s+/)` (maximal-run split; an empty input
yields the singleton list of the empty string, leading whitespace yields a
leading empty segment, exactly as in JavaScript). -/
def splitWs (s : String) : List String :=
  (splitWsAux s.data [] false).map (fun l => String.mk l)

/-- JavaScript `s.split(sep)` for a single separator character: every
occurrence separates, adjacent occurrences give empty segments. -/
def splitChar (sep : Char) : List Char → List (List Char)
  | [] => [[]]
  | c :: rest =>
    if c = sep then [] :: splitChar sep rest
    else
      match splitChar sep rest with
      | [] => [[c]]
      | s :: ss => (c :: s) :: ss

/-- Assignment `obj[k] = true` on a JavaScript object viewed as its ordered
key list: an existing key keeps its position, a new key goes to the end. -/
def insertKey (ks : List String) (k : String) : List String :=
  if k ∈ ks then ks else ks ++ [k]

/-- The resource descriptor produced per ingested file.  Modelled from the
spec: the JS resource record (lib/resource/JS.js, not under src/) with the
fields and defaults of spec section 3 — flags false, id and
jsxDOMImplementor and networkSize absent, dependency lists and option map
empty. -/
structure JS where
  path : String
  id : Option String := none
  isModule : Bool := false
  isLegacy : Bool := false
  isRunWhenReady : Bool := false
  isJavelin : Bool := false
  isPolyfill : Bool := false
  isPermanent : Bool := false
  isNopackage : Bool := false
  isJSXEnabled : Bool := false
  jsxDOMImplementor : Option String := none
  requiredModules : List String := []
  requiredLegacyComponents : List String := []
  requiredCSS : List String := []
  options : List String := []
  definedJavelinSymbols : List String := []
  requiredJavelinSymbols : List String := []
  networkSize : Option Nat := none
  deriving DecidableEq, Repr

/-- Project configuration collaborator: only `resolveID` is used by
JSLoader. -/
structure ProjectConfiguration where
  resolveID : String → String

/-- First token of a tag value, `value.split(/\s+/)[0]` (total: a split
result is never empty). -/
def firstToken (value : String) : String :=
  (splitWs value).headD ""

/-- Case `provides` of the docblock switch: sets id to the first token and
marks not-a-module. -/
def tagProvides (js : JS) (value : String) : JS :=
  { js with isModule := false, id := some (firstToken value) }

/-- Case `providesModule`: sets id to the first token and marks module. -/
def tagProvidesModule (js : JS) (value : String) : JS :=
  { js with isModule := true, id := some (firstToken value) }

/-- Case `providesLegacy`: id gains the legacy prefix; marks module, legacy
and run-when-ready. -/
def tagProvidesLegacy (js : JS) (value : String) : JS :=
  { js with isRunWhenReady := true, isLegacy := true, isModule := true,
            id := some ("legacy:" ++ firstToken value) }

/-- Case `css`: appends all tokens to requiredCSS. -/
def tagCss (js : JS) (value : String) : JS :=
  { js with requiredCSS := js.requiredCSS ++ splitWs value }

/-- Case `requires`: appends all tokens to requiredLegacyComponents. -/
def tagRequires (js : JS) (value : String) : JS :=
  { js with requiredLegacyComponents :=
      js.requiredLegacyComponents ++ splitWs value }

/-- Case `javelin`: marks module, javelin and run-when-ready.  It does not
write the id. -/
def tagJavelin (js : JS) : JS :=
  { js with isModule := true, isJavelin := true, isRunWhenReady := true }

/-- Case `polyfill`. -/
def tagPolyfill (js : JS) : JS :=
  { js with isPolyfill := true }

/-- Case `runWhenReady_DEPRECATED`. -/
def tagRunWhenReady (js : JS) : JS :=
  { js with isRunWhenReady := true }

/-- Case `jsx`: marks JSX-enabled, records the value as DOM implementor,
and — only when the value is truthy, that is nonempty — pushes it onto
requiredModules. -/
def tagJsx (js : JS) (value : String) : JS :=
  if value ≠ "" then
    { js with isJSXEnabled := true, jsxDOMImplementor := some value,
              requiredModules := js.requiredModules ++ [value] }
  else { js with isJSXEnabled := true, jsxDOMImplementor := some value }

/-- Case `permanent`. -/
def tagPermanent (js : JS) : JS :=
  { js with isPermanent := true }

/-- Case `nopackage`. -/
def tagNopackage (js : JS) : JS :=
  { js with isNopackage := true }

/-- Cases `option` and `options` (shared case body): every token becomes a
true-valued key of the options object. -/
def tagOption (js : JS) (value : String) : JS :=
  { js with options := (splitWs value).foldl insertKey js.options }

/-- One iteration of the `props.forEach` switch in
JSLoader.prototype.parseDocblockOptions: mutate the descriptor according to
a single (tag, value) pair.  The case order and effects follow the source
switch, with each case body factored into the named definition above;
unknown tags fall through to the default branch and are ignored. -/
def applyTag (js : JS) : String × String → JS
  | (name, value) =>
  if name = "provides" then tagProvides js value
  else if name = "providesModule" then tagProvidesModule js value
  else if name = "providesLegacy" then tagProvidesLegacy js value
  else if name = "css" then tagCss js value
  else if name = "requires" then tagRequires js value
  else if name = "javelin" then tagJavelin js
  else if name = "polyfill" then tagPolyfill js
  else if name = "runWhenReady_DEPRECATED" then tagRunWhenReady js
  else if name = "jsx" then tagJsx js value
  else if name = "permanent" then tagPermanent js
  else if name = "nopackage" then tagNopackage js
  else if name = "option" ∨ name = "options" then tagOption js value
  else js

/-- JSLoader.prototype.parseDocblockOptions, given the ordered (tag, value)
pairs already extracted by the external docblock collaborator
(docblock.parse of docblock.extract of the source text): fold the switch
over the pairs in source order. -/
def parseDocblockOptions (js : JS) (props : List (String × String)) : JS :=
  props.foldl applyTag js

/-- JavaScript `s.lastIndexOf(pat)`: the largest index at which the full
pattern occurs, or -1. -/
def jsLastIndexOf (s pat : String) : Int :=
  match ((List.range (s.data.length + 1)).filter
      (fun i => decide ((s.data.drop i).take pat.data.length = pat.data))).getLast? with
  | some i => (i : Int)
  | none => -1

/-- JSLoader.prototype.matchPath:
`filePath.lastIndexOf(chars) === filePath.length - 3` where chars is the
three-character extension dot-j-s. -/
def matchPath (filePath : String) : Bool :=
  jsLastIndexOf filePath ".js" = (filePath.data.length : Int) - 3

/-- Strip the trailing colon-and-line-number suffix from one classifier
output line: `line.replace(re, empty)` for a regexp matching a colon
followed by one or more digits at end of line. -/
def stripLineNum (line : String) : String :=
  let rev := line.data.reverse
  let digits := rev.takeWhile (fun c => c.isDigit)
  if digits = [] then line
  else
    match rev.drop digits.length with
    | ':' :: rest => String.mk rest.reverse
    | _ => line

/-- Accumulator of the classifier-output fold in
JSLoader.prototype._javelinSymbolsCallback: the `defines` and `requires`
objects (as ordered key lists) and the descriptor id being mutated. -/
structure JvAcc where
  defines : List String
  requires : List String
  id : Option String
  deriving DecidableEq, Repr

/-- Shared body of the two defining cases of the fold (installable unit and
behavior): `delete requires[name]`, `defines[name] = true`,
`requires[prim] = true`, `js.id = name`. -/
def jvDefine (acc : JvAcc) (name prim : String) : JvAcc :=
  { defines := insertKey acc.defines name,
    requires := insertKey (acc.requires.filter (fun s => s ≠ name)) prim,
    id := some name }

/-- The reference case of the fold: mark the symbol required unless it is
already defined. -/
def jvRequire (acc : JvAcc) (name : String) : JvAcc :=
  if name ∈ acc.defines then acc
  else { acc with requires := insertKey acc.requires name }

/-- Symbol named by a reference line: `'JX.' + line.split('.')[1]`.  When
the line has no dot, index 1 is undefined and JavaScript string
concatenation stringifies it. -/
def jvRefName (line : String) : String :=
  match (splitChar '.' line.data).get? 1 with
  | some t => "JX." ++ String.mk t
  | none => "JX.undefined"

/-- The switch body over a nonempty stripped classifier line, given its
first character and the remaining characters: a plus line defines an
installable unit (symbol JX. + rest of line), a question-mark line
references a unit, a star line defines a behavior (symbol
javelin-behavior- + rest of line); anything else has no effect. -/
def javelinCore (acc : JvAcc) (c : Char) (rest : List Char) (line : String) : JvAcc :=
  if c = '+' then jvDefine acc ("JX." ++ String.mk rest) "JX.install"
  else if c = '?' then jvRequire acc (jvRefName line)
  else if c = '*' then jvDefine acc ("javelin-behavior-" ++ String.mk rest) "JX.behavior"
  else acc

/-- The switch over one stripped classifier line (an empty line has no
first character and no effect). -/
def javelinStep (acc : JvAcc) (line : String) : JvAcc :=
  match line.data with
  | [] => acc
  | c :: rest => javelinCore acc c rest line

/-- One line of the fold: strip the trailing line number, then apply the
switch. -/
def javelinLine (acc : JvAcc) (rawLine : String) : JvAcc :=
  javelinStep acc (stripLineNum rawLine)

/-- JavaScript `output.split(re)` for a regexp matching one newline
character. -/
def splitLines (output : String) : List String :=
  (splitChar '\n' output.data).map (fun l => String.mk l)

/-- JSLoader.prototype._javelinSymbolsCallback: fold the line protocol over
the collected classifier output, then store the key sets of the two
accumulator objects on the descriptor and invoke the callback (the
invocation itself is modelled at the stage level). -/
def javelinSymbolsCallback (js : JS) (output : String) : JS :=
  let acc := (splitLines output).foldl javelinLine
    { defines := [], requires := [], id := js.id }
  { js with definedJavelinSymbols := acc.defines,
            requiredJavelinSymbols := acc.requires,
            id := acc.id }

/-- A stage's (or a whole ingestion's) observable callback behavior: the
list of completion-callback invocations it performs, in order.  The boolean
is true when the invocation happens on a later event-loop turn than the
call (subprocess exit, zlib callback, process.nextTick) and false when it
happens in the same synchronous turn. -/
def CbCalls := List (Bool × JS)

/-- JSLoader.prototype.extractJavelinSymbols as a stage: a non-javelin
descriptor is passed through with a synchronous callback and no subprocess;
otherwise the classifier subprocess is spawned and on its (asynchronous)
exit the output fold runs.  The collected classifier output for the source
is supplied by the external-process oracle. -/
def extractJavelinSymbols (classifierOutput : String → String)
    (js : JS) (sourceCode : String) : List (Bool × JS) :=
  if !js.isJavelin then [(false, js)]
  else [(true, javelinSymbolsCallback js (classifierOutput sourceCode))]

/-- JSLoader.prototype.extractNetworkSize: zlib.deflate invokes its
callback asynchronously with (err, buffer); the deflate oracle returns the
buffer length on success and none on error.  The source ignores err and
evaluates buffer.length unconditionally, so on a deflate error the member
access on undefined throws a TypeError inside the zlib callback and the
completion callback is never invoked: no invocation is recorded. -/
def extractNetworkSize (deflate : String → Option Nat)
    (js : JS) (sourceCode : String) : List (Bool × JS) :=
  match deflate sourceCode with
  | some len => [(true, { js with networkSize := some len })]
  | none => []

/-- The extractExtra generated when neither optional stage is enabled:
`process.nextTick(function() { callback(null, js); })` — one asynchronous
invocation with the unmodified descriptor. -/
def extractExtraNeither (js : JS) (_sourceCode : String) : List (Bool × JS) :=
  [(true, js)]

/-- `new JS(path)` followed by `if (configuration) js.isModule = true`. -/
def initJS (path : String) (configuration : Option ProjectConfiguration) : JS :=
  if configuration.isSome then { path := path, isModule := true }
  else { path := path }

/-- Observable result of one loadFromSource call: the callback invocations
made, and whether the require-extraction collaborator and the extractExtra
pipeline were invoked. -/
structure LoadResult where
  calls : List (Bool × JS)
  usedRequireExtractor : Bool
  usedExtractExtra : Bool
  deriving Repr

/-- The descriptor as it stands right after tag interpretation inside
loadFromSource (`new JS(path)`, configuration flag, docblock fold). -/
def docblockDescriptor (parseTags : String → List (String × String))
    (path : String) (configuration : Option ProjectConfiguration)
    (sourceCode : String) : JS :=
  parseDocblockOptions (initJS path configuration) (parseTags sourceCode)

/-- The module block of loadFromSource, applied to the descriptor after tag
interpretation: for module files, extract the require calls, resolve a
missing (or falsy empty-string) id through the configuration, and append
the requires to requiredModules; non-module files pass through. -/
def moduleDescriptor (extractRequireCalls : String → List String)
    (configuration : Option ProjectConfiguration)
    (js2 : JS) (sourceCode : String) : JS :=
  if js2.isModule then
    { (match configuration with
       | some c =>
         if js2.id.getD "" = "" then
           { js2 with id := some (c.resolveID js2.path) }
         else js2
       | none => js2) with
      requiredModules :=
        (match configuration with
         | some c =>
           if js2.id.getD "" = "" then
             { js2 with id := some (c.resolveID js2.path) }
           else js2
         | none => js2).requiredModules ++ extractRequireCalls sourceCode }
  else js2

/-- JSLoader.prototype.loadFromSource.  External collaborators are
parameters: parseTags is docblock.parse composed with docblock.extract,
extractRequireCalls is commonjs.extractRequireCalls (both repository files
outside src/, specified by the spec as pure functions on the source text),
and extractExtra is the stage composition chosen at construction time.
The descriptor is built, the docblock options are folded in, an ignore
option short-circuits with a synchronous callback, otherwise module files
get requires extracted and ids resolved before the extra pipeline runs. -/
def loadFromSource (parseTags : String → List (String × String))
    (extractRequireCalls : String → List String)
    (extractExtra : JS → String → List (Bool × JS))
    (path : String) (configuration : Option ProjectConfiguration)
    (sourceCode : String) : LoadResult :=
  if "ignore" ∈ (docblockDescriptor parseTags path configuration sourceCode).options then
    { calls := [(false, docblockDescriptor parseTags path configuration sourceCode)],
      usedRequireExtractor := false,
      usedExtractExtra := false }
  else
    { calls :=
        extractExtra
          (moduleDescriptor extractRequireCalls configuration
            (docblockDescriptor parseTags path configuration sourceCode) sourceCode)
          sourceCode,
      usedRequireExtractor :=
        (docblockDescriptor parseTags path configuration sourceCode).isModule,
      usedExtractExtra := true }

/-- A resource as seen by the post-process pass.  Modelled from the spec:
an ingested descriptor reduced to the fields postProcess reads (its path,
its stable id, and its requiredModules list). -/
structure Resource where
  path : String
  id : String
  requiredModules : List String
  deriving DecidableEq, Repr

/-- `map.getResourceByPath(p)`: the build-wide resource container's
path lookup, modelled from the spec as first match by path. -/
def getResourceByPath (m : List Resource) (p : String) : Option Resource :=
  m.find? (fun r => r.path = p)

/-- The scan of Node's posix `path.dirname`: walk the indices from
`length - 1` down to 1 and return the index of the first separator seen
after a non-separator character. -/
def dirnameEnd : List Char → Nat → Bool → Option Nat
  | _, 0, _ => none
  | [], _ + 1, _ => none
  | c :: rest, i + 1, matched =>
    if c = '/' then
      if matched then dirnameEnd rest i true else some (i + 1)
    else dirnameEnd rest i false

/-- Node `path.dirname` (posix). -/
def posixDirname (p : String) : String :=
  if p.data = [] then "."
  else
    let hasRoot := p.data.head? = some '/'
    match dirnameEnd p.data.reverse (p.data.length - 1) true with
    | none => if hasRoot then "/" else "."
    | some e => if hasRoot ∧ e = 1 then "//" else String.mk (p.data.take e)

/-- Segment resolution of Node's normalizeString: drop empty and
single-dot segments, let double-dot pop the previous segment, keeping
double-dots that climb above the start only for relative paths. -/
def normalizeSegs (segs : List String) (allowAboveRoot : Bool) : List String :=
  segs.foldl
    (fun acc s =>
      if s = "" ∨ s = "." then acc
      else if s = ".." then
        if acc ≠ [] ∧ acc.getLast? ≠ some ".." then acc.dropLast
        else if allowAboveRoot then acc ++ [".."]
        else acc
      else acc ++ [s])
    []

/-- Node `path.normalize` (posix). -/
def posixNormalize (p : String) : String :=
  if p = "" then "."
  else
    let isAbs := p.data.head? = some '/'
    let trailing := p.data.getLast? = some '/'
    let ns := normalizeSegs ((splitChar '/' p.data).map (fun l => String.mk l)) (!isAbs)
    let core := String.intercalate "/" ns
    if core = "" then
      if isAbs then "/" else if trailing then "./" else "."
    else
      let core := if trailing then core ++ "/" else core
      if isAbs then "/" ++ core else core

/-- Node `path.join` (posix) on two arguments: empty arguments are skipped,
the rest are joined with a separator and normalized. -/
def posixJoin (a b : String) : String :=
  if a = "" ∧ b = "" then "."
  else posixNormalize (if a = "" then b else if b = "" then a else a ++ "/" ++ b)

/-- The per-entry body of the postProcess loop: an entry whose first
character is a dot is joined against the owning resource's directory and
looked up as relative + .js, falling back to relative + /index.js; a found
resource's id replaces the entry, otherwise the entry is kept (the failure
is swallowed — the source's log call is commented out). -/
def resolveRelative (m : List Resource) (ownerPath : String) (req : String) : String :=
  if req.data.head? = some '.' then
    (((getResourceByPath m (posixJoin (posixDirname ownerPath) req ++ ".js")).orElse
        (fun _ => getResourceByPath m (posixJoin (posixDirname ownerPath) req ++ "/index.js"))).elim
      req (fun res => res.id))
  else req

/-- JSLoader.prototype.postProcess: rewrite every resource's
requiredModules entries in place (the final process.nextTick callback
carries no data and is not modelled). -/
def postProcess (m : List Resource) (resources : List Resource) : List Resource :=
  resources.map
    (fun r => { r with requiredModules := r.requiredModules.map (resolveRelative m r.path) })

/-- The id written by each provides-family tag: the first token of the
value, with the legacy prefix for providesLegacy. -/
def tagId (t v : String) : String :=
  if t = "providesLegacy" then "legacy:" ++ firstToken v else firstToken v

/-- A fresh descriptor for a plain path, as built at the top of
loadFromSource without a configuration. -/
def jsBlank : JS := { path := "a.js" }

/-- Classifier output of the three-line example: an installable unit, a
reference, and a behavior. -/
def jvOut : String := "+Widget\n?Other.method\n*menu"

/-- A docblock collaborator returning a single option tag carrying the
ignore token for every source text. -/
def parseTagsIgnore : String → List (String × String) :=
  fun _ => [("option", "ignore")]

/-- A docblock collaborator returning a jsx tag followed by an ignore
option for every source text. -/
def parseTagsJsxIgnore : String → List (String × String) :=
  fun _ => [("jsx", "X"), ("option", "ignore")]

/-- Example build: a directory module resolved through its index file. -/
def fooRes : Resource := { path := "foo/index.js", id := "Foo", requiredModules := [] }

/-- Example resource requiring the foo directory by relative path. -/
def barFoo : Resource := { path := "bar.js", id := "Bar", requiredModules := ["./foo"] }

/-- Example resource with an unresolvable relative requirement. -/
def barMissing : Resource := { path := "bar.js", id := "Bar", requiredModules := ["./missing"] }

/-- Membership in a JavaScript-object key list after an assignment. -/
theorem mem_insertKey {ks : List String} {k s : String} :
    s ∈ insertKey ks k ↔ s ∈ ks ∨ s = k := by
  unfold insertKey
  split
  · constructor
    · exact Or.inl
    · rintro (h | rfl)
      · exact h
      · assumption
  · simp [List.mem_append]

/-- Folding assignments over an object preserves existing keys. -/
theorem foldl_insertKey_mem_left {keys ks : List String} {s : String}
    (h : s ∈ ks) : s ∈ keys.foldl insertKey ks := by
  induction keys generalizing ks with
  | nil => exact h
  | cons k keys ih => exact ih (mem_insertKey.mpr (Or.inl h))

/-- Folding assignments over an object records every assigned key. -/
theorem foldl_insertKey_mem_right {keys ks : List String} {s : String}
    (h : s ∈ keys) : s ∈ keys.foldl insertKey ks := by
  induction keys generalizing ks with
  | nil => cases h
  | cons k keys ih =>
    rw [List.foldl_cons]
    rcases List.mem_cons.mp h with rfl | h'
    · exact foldl_insertKey_mem_left (mem_insertKey.mpr (Or.inr rfl))
    · exact ih h'

/-- Case analysis on one docblock switch iteration: the tag name selects
exactly one of the named case bodies, and any unknown tag leaves the
descriptor unchanged. -/
theorem applyTag_cases (js : JS) (n v : String) :
    (n = "provides" ∧ applyTag js (n, v) = tagProvides js v) ∨
    (n = "providesModule" ∧ applyTag js (n, v) = tagProvidesModule js v) ∨
    (n = "providesLegacy" ∧ applyTag js (n, v) = tagProvidesLegacy js v) ∨
    (n = "css" ∧ applyTag js (n, v) = tagCss js v) ∨
    (n = "requires" ∧ applyTag js (n, v) = tagRequires js v) ∨
    (n = "javelin" ∧ applyTag js (n, v) = tagJavelin js) ∨
    (n = "polyfill" ∧ applyTag js (n, v) = tagPolyfill js) ∨
    (n = "runWhenReady_DEPRECATED" ∧ applyTag js (n, v) = tagRunWhenReady js) ∨
    (n = "jsx" ∧ applyTag js (n, v) = tagJsx js v) ∨
    (n = "permanent" ∧ applyTag js (n, v) = tagPermanent js) ∨
    (n = "nopackage" ∧ applyTag js (n, v) = tagNopackage js) ∨
    ((n = "option" ∨ n = "options") ∧ applyTag js (n, v) = tagOption js v) ∨
    applyTag js (n, v) = js := by
  by_cases g1 : n = "provides"
  · exact Or.inl ⟨g1, by subst g1; rfl⟩
  by_cases g2 : n = "providesModule"
  · exact Or.inr (Or.inl ⟨g2, by subst g2; rfl⟩)
  by_cases g3 : n = "providesLegacy"
  · exact Or.inr (Or.inr (Or.inl ⟨g3, by subst g3; rfl⟩))
  by_cases g4 : n = "css"
  · exact Or.inr (Or.inr (Or.inr (Or.inl ⟨g4, by subst g4; rfl⟩)))
  by_cases g5 : n = "requires"
  · exact Or.inr (Or.inr (Or.inr (Or.inr (Or.inl ⟨g5, by subst g5; rfl⟩))))
  by_cases g6 : n = "javelin"
  · exact Or.inr (Or.inr (Or.inr (Or.inr (Or.inr (Or.inl ⟨g6, by subst g6; rfl⟩)))))
  by_cases g7 : n = "polyfill"
  · exact Or.inr (Or.inr (Or.inr (Or.inr (Or.inr (Or.inr (Or.inl
      ⟨g7, by subst g7; rfl⟩))))))
  by_cases g8 : n = "runWhenReady_DEPRECATED"
  · exact Or.inr (Or.inr (Or.inr (Or.inr (Or.inr (Or.inr (Or.inr (Or.inl
      ⟨g8, by subst g8; rfl⟩)))))))
  by_cases g9 : n = "jsx"
  · exact Or.inr (Or.inr (Or.inr (Or.inr (Or.inr (Or.inr (Or.inr (Or.inr (Or.inl
      ⟨g9, by subst g9; rfl⟩))))))))
  by_cases g10 : n = "permanent"
  · exact Or.inr (Or.inr (Or.inr (Or.inr (Or.inr (Or.inr (Or.inr (Or.inr (Or.inr
      (Or.inl ⟨g10, by subst g10; rfl⟩)))))))))
  by_cases g11 : n = "nopackage"
  · exact Or.inr (Or.inr (Or.inr (Or.inr (Or.inr (Or.inr (Or.inr (Or.inr (Or.inr
      (Or.inr (Or.inl ⟨g11, by subst g11; rfl⟩))))))))))
  by_cases g12 : n = "option" ∨ n = "options"
  · refine Or.inr (Or.inr (Or.inr (Or.inr (Or.inr (Or.inr (Or.inr (Or.inr (Or.inr
      (Or.inr (Or.inr (Or.inl ⟨g12, ?_⟩)))))))))))
    rcases g12 with g | g <;> (subst g; rfl)
  refine Or.inr (Or.inr (Or.inr (Or.inr (Or.inr (Or.inr (Or.inr (Or.inr (Or.inr
    (Or.inr (Or.inr (Or.inr ?_)))))))))))
  show (if n = "provides" then tagProvides js v
    else if n = "providesModule" then tagProvidesModule js v
    else if n = "providesLegacy" then tagProvidesLegacy js v
    else if n = "css" then tagCss js v
    else if n = "requires" then tagRequires js v
    else if n = "javelin" then tagJavelin js
    else if n = "polyfill" then tagPolyfill js
    else if n = "runWhenReady_DEPRECATED" then tagRunWhenReady js
    else if n = "jsx" then tagJsx js v
    else if n = "permanent" then tagPermanent js
    else if n = "nopackage" then tagNopackage js
    else if n = "option" ∨ n = "options" then tagOption js v
    else js) = js
  simp only [if_neg g1, if_neg g2, if_neg g3, if_neg g4, if_neg g5, if_neg g6,
    if_neg g7, if_neg g8, if_neg g9, if_neg g10, if_neg g11, if_neg g12]

/-- A tag other than the three provides-family tags leaves the id alone;
in particular the javelin tag does not touch it. -/
theorem applyTag_id_preserved (js : JS) (n v : String)
    (h1 : n ≠ "provides") (h2 : n ≠ "providesModule") (h3 : n ≠ "providesLegacy") :
    (applyTag js (n, v)).id = js.id := by
  rcases applyTag_cases js n v with ⟨g, e⟩ | ⟨g, e⟩ | ⟨g, e⟩ | ⟨g, e⟩ | ⟨g, e⟩ |
    ⟨g, e⟩ | ⟨g, e⟩ | ⟨g, e⟩ | ⟨g, e⟩ | ⟨g, e⟩ | ⟨g, e⟩ | ⟨g, e⟩ | e
  · exact absurd g h1
  · exact absurd g h2
  · exact absurd g h3
  · rw [e]; rfl
  · rw [e]; rfl
  · rw [e]; rfl
  · rw [e]; rfl
  · rw [e]; rfl
  · rw [e]; unfold tagJsx; split <;> rfl
  · rw [e]; rfl
  · rw [e]; rfl
  · rw [e]; rfl
  · rw [e]

/-- Each provides-family tag overwrites the id with its own value. -/
theorem applyTag_id_set (js : JS) (t v : String)
    (ht : t = "provides" ∨ t = "providesModule" ∨ t = "providesLegacy") :
    (applyTag js (t, v)).id = some (tagId t v) := by
  rcases ht with rfl | rfl | rfl <;> rfl

/-- Folding tags none of which is a provides-family tag preserves the id. -/
theorem foldl_applyTag_id_preserved (r : List (String × String)) :
    ∀ js : JS,
      (∀ p ∈ r, p.1 ≠ "provides" ∧ p.1 ≠ "providesModule" ∧ p.1 ≠ "providesLegacy") →
      (r.foldl applyTag js).id = js.id := by
  induction r with
  | nil => intro js _; rfl
  | cons p r ih =>
    intro js h
    obtain ⟨n, v⟩ := p
    rw [List.foldl_cons, ih _ (fun q hq => h q (List.mem_cons_of_mem _ hq))]
    have hp := h (n, v) (List.mem_cons_self _ _)
    exact applyTag_id_preserved js n v hp.1 hp.2.1 hp.2.2

/-- No docblock tag ever removes an entry from requiredModules. -/
theorem applyTag_requiredModules_mono (js : JS) (n v x : String)
    (h : x ∈ js.requiredModules) : x ∈ (applyTag js (n, v)).requiredModules := by
  rcases applyTag_cases js n v with ⟨g, e⟩ | ⟨g, e⟩ | ⟨g, e⟩ | ⟨g, e⟩ | ⟨g, e⟩ |
    ⟨g, e⟩ | ⟨g, e⟩ | ⟨g, e⟩ | ⟨g, e⟩ | ⟨g, e⟩ | ⟨g, e⟩ | ⟨g, e⟩ | e
  · rw [e]; exact h
  · rw [e]; exact h
  · rw [e]; exact h
  · rw [e]; exact h
  · rw [e]; exact h
  · rw [e]; exact h
  · rw [e]; exact h
  · rw [e]; exact h
  · rw [e]; unfold tagJsx; split
    · exact List.mem_append_left _ h
    · exact h
  · rw [e]; exact h
  · rw [e]; exact h
  · rw [e]; exact h
  · rw [e]; exact h

/-- Folding tags never removes an entry from requiredModules. -/
theorem foldl_applyTag_requiredModules_mono (r : List (String × String)) :
    ∀ (js : JS) (x : String), x ∈ js.requiredModules →
      x ∈ (r.foldl applyTag js).requiredModules := by
  induction r with
  | nil => intro js x h; exact h
  | cons p r ih =>
    intro js x h
    obtain ⟨n, v⟩ := p
    rw [List.foldl_cons]
    exact ih _ _ (applyTag_requiredModules_mono js n v x h)

/-- No docblock tag ever clears the JSX-enabled flag. -/
theorem applyTag_isJSXEnabled_mono (js : JS) (n v : String)
    (h : js.isJSXEnabled = true) : (applyTag js (n, v)).isJSXEnabled = true := by
  rcases applyTag_cases js n v with ⟨g, e⟩ | ⟨g, e⟩ | ⟨g, e⟩ | ⟨g, e⟩ | ⟨g, e⟩ |
    ⟨g, e⟩ | ⟨g, e⟩ | ⟨g, e⟩ | ⟨g, e⟩ | ⟨g, e⟩ | ⟨g, e⟩ | ⟨g, e⟩ | e
  · rw [e]; exact h
  · rw [e]; exact h
  · rw [e]; exact h
  · rw [e]; exact h
  · rw [e]; exact h
  · rw [e]; exact h
  · rw [e]; exact h
  · rw [e]; exact h
  · rw [e]; unfold tagJsx; split <;> rfl
  · rw [e]; exact h
  · rw [e]; exact h
  · rw [e]; exact h
  · rw [e]; exact h

/-- Folding tags preserves the JSX-enabled flag once set. -/
theorem foldl_applyTag_isJSXEnabled_mono (r : List (String × String)) :
    ∀ js : JS, js.isJSXEnabled = true →
      (r.foldl applyTag js).isJSXEnabled = true := by
  induction r with
  | nil => intro js h; exact h
  | cons p r ih =>
    intro js h
    obtain ⟨n, v⟩ := p
    rw [List.foldl_cons]
    exact ih _ (applyTag_isJSXEnabled_mono js n v h)

/-- Only the jsx tag writes the DOM implementor. -/
theorem applyTag_jsxDOM_preserved (js : JS) (n v : String) (hn : n ≠ "jsx") :
    (applyTag js (n, v)).jsxDOMImplementor = js.jsxDOMImplementor := by
  rcases applyTag_cases js n v with ⟨g, e⟩ | ⟨g, e⟩ | ⟨g, e⟩ | ⟨g, e⟩ | ⟨g, e⟩ |
    ⟨g, e⟩ | ⟨g, e⟩ | ⟨g, e⟩ | ⟨g, e⟩ | ⟨g, e⟩ | ⟨g, e⟩ | ⟨g, e⟩ | e
  · rw [e]; rfl
  · rw [e]; rfl
  · rw [e]; rfl
  · rw [e]; rfl
  · rw [e]; rfl
  · rw [e]; rfl
  · rw [e]; rfl
  · rw [e]; rfl
  · exact absurd g hn
  · rw [e]; rfl
  · rw [e]; rfl
  · rw [e]; rfl
  · rw [e]

/-- Folding tags with no jsx occurrence preserves the DOM implementor. -/
theorem foldl_applyTag_jsxDOM_preserved (r : List (String × String)) :
    ∀ js : JS, (∀ q ∈ r, q.1 ≠ "jsx") →
      (r.foldl applyTag js).jsxDOMImplementor = js.jsxDOMImplementor := by
  induction r with
  | nil => intro js _; rfl
  | cons p r ih =>
    intro js h
    obtain ⟨n, v⟩ := p
    rw [List.foldl_cons, ih _ (fun q hq => h q (List.mem_cons_of_mem _ hq))]
    exact applyTag_jsxDOM_preserved js n v (h (n, v) (List.mem_cons_self _ _))

/-- No docblock tag ever removes an options key. -/
theorem applyTag_options_mono (js : JS) (n v s : String)
    (h : s ∈ js.options) : s ∈ (applyTag js (n, v)).options := by
  rcases applyTag_cases js n v with ⟨g, e⟩ | ⟨g, e⟩ | ⟨g, e⟩ | ⟨g, e⟩ | ⟨g, e⟩ |
    ⟨g, e⟩ | ⟨g, e⟩ | ⟨g, e⟩ | ⟨g, e⟩ | ⟨g, e⟩ | ⟨g, e⟩ | ⟨g, e⟩ | e
  · rw [e]; exact h
  · rw [e]; exact h
  · rw [e]; exact h
  · rw [e]; exact h
  · rw [e]; exact h
  · rw [e]; exact h
  · rw [e]; exact h
  · rw [e]; exact h
  · rw [e]; unfold tagJsx; split <;> exact h
  · rw [e]; exact h
  · rw [e]; exact h
  · rw [e]; exact foldl_insertKey_mem_left h
  · rw [e]; exact h

/-- Folding tags never removes an options key. -/
theorem foldl_applyTag_options_mono (r : List (String × String)) :
    ∀ (js : JS) (s : String), s ∈ js.options →
      s ∈ (r.foldl applyTag js).options := by
  induction r with
  | nil => intro js s h; exact h
  | cons p r ih =>
    intro js s h
    obtain ⟨n, v⟩ := p
    rw [List.foldl_cons]
    exact ih _ _ (applyTag_options_mono js n v s h)

/-- An option tag records each of its whitespace-separated tokens. -/
theorem applyTag_option_adds (js : JS) (v k : String) (h : k ∈ splitWs v) :
    k ∈ (applyTag js ("option", v)).options := by
  have e : applyTag js ("option", v) = tagOption js v := rfl
  rw [e]
  exact foldl_insertKey_mem_right h

/-- A tag pair list containing an option tag with a given token leaves that
token as a key of the final options object. -/
theorem parseDocblockOptions_option_mem (tags : List (String × String)) :
    ∀ (js : JS) (ov k : String), ("option", ov) ∈ tags → k ∈ splitWs ov →
      k ∈ (parseDocblockOptions js tags).options := by
  induction tags with
  | nil => intro js ov k h _; cases h
  | cons p tags ih =>
    intro js ov k hmem hk
    unfold parseDocblockOptions at *
    rw [List.foldl_cons]
    rcases List.mem_cons.mp hmem with rfl | h'
    · exact foldl_applyTag_options_mono tags _ _ (applyTag_option_adds js ov k hk)
    · exact ih _ _ _ h' hk

/-- The jsx case marks the descriptor JSX-enabled. -/
theorem tagJsx_isJSXEnabled (js : JS) (v : String) :
    (tagJsx js v).isJSXEnabled = true := by
  unfold tagJsx; split <;> rfl

/-- The jsx case records the value as the DOM implementor. -/
theorem tagJsx_jsxDOM (js : JS) (v : String) :
    (tagJsx js v).jsxDOMImplementor = some v := by
  unfold tagJsx; split <;> rfl

/-- The jsx case appends a nonempty value to requiredModules. -/
theorem tagJsx_requiredModules (js : JS) (v : String) (hv : v ≠ "") :
    v ∈ (tagJsx js v).requiredModules := by
  unfold tagJsx
  rw [if_pos hv]
  simp

/-- A defining line can leave a symbol in both accumulators only for the
runtime primitive it injects into requires. -/
theorem jvDefine_inv (acc : JvAcc) (name prim : String)
    (hp : prim = "JX.install" ∨ prim = "JX.behavior")
    (h : ∀ s, s ∈ acc.requires → s ∈ acc.defines → s = "JX.install" ∨ s = "JX.behavior") :
    ∀ s, s ∈ (jvDefine acc name prim).requires → s ∈ (jvDefine acc name prim).defines →
      s = "JX.install" ∨ s = "JX.behavior" := by
  intro s hreq hdef
  have hreq' : s ∈ insertKey (acc.requires.filter (fun t => t ≠ name)) prim := hreq
  have hdef' : s ∈ insertKey acc.defines name := hdef
  rcases mem_insertKey.mp hreq' with hin | rfl
  · have hf := List.mem_filter.mp hin
    have hne : s ≠ name := by simpa using hf.2
    rcases mem_insertKey.mp hdef' with hd | rfl
    · exact h s hf.1 hd
    · exact absurd rfl hne
  · exact hp

/-- A reference line adds a required symbol only when it is not defined, so
it cannot create an overlap. -/
theorem jvRequire_inv (acc : JvAcc) (name : String)
    (h : ∀ s, s ∈ acc.requires → s ∈ acc.defines → s = "JX.install" ∨ s = "JX.behavior") :
    ∀ s, s ∈ (jvRequire acc name).requires → s ∈ (jvRequire acc name).defines →
      s = "JX.install" ∨ s = "JX.behavior" := by
  intro s hreq hdef
  unfold jvRequire at hreq hdef
  by_cases hmem : name ∈ acc.defines
  · rw [if_pos hmem] at hreq hdef
    exact h s hreq hdef
  · rw [if_neg hmem] at hreq hdef
    have hreq' : s ∈ insertKey acc.requires name := hreq
    have hdef' : s ∈ acc.defines := hdef
    rcases mem_insertKey.mp hreq' with hin | rfl
    · exact h s hin hdef'
    · exact absurd hdef' hmem

/-- The per-line switch body preserves the overlap invariant. -/
theorem javelinCore_inv (acc : JvAcc) (c : Char) (rest : List Char) (line : String)
    (h : ∀ s, s ∈ acc.requires → s ∈ acc.defines → s = "JX.install" ∨ s = "JX.behavior") :
    ∀ s, s ∈ (javelinCore acc c rest line).requires →
      s ∈ (javelinCore acc c rest line).defines →
      s = "JX.install" ∨ s = "JX.behavior" := by
  unfold javelinCore
  split_ifs with hc1 hc2 hc3
  · exact jvDefine_inv _ _ _ (Or.inl rfl) h
  · exact jvRequire_inv _ _ h
  · exact jvDefine_inv _ _ _ (Or.inr rfl) h
  · exact h

/-- One whole classifier line preserves the overlap invariant. -/
theorem javelinStep_inv (acc : JvAcc) (line : String)
    (h : ∀ s, s ∈ acc.requires → s ∈ acc.defines → s = "JX.install" ∨ s = "JX.behavior") :
    ∀ s, s ∈ (javelinStep acc line).requires → s ∈ (javelinStep acc line).defines →
      s = "JX.install" ∨ s = "JX.behavior" := by
  rcases hl : line.data with - | ⟨c, rest⟩
  · have e : javelinStep acc line = acc := by unfold javelinStep; rw [hl]
    rw [e]; exact h
  · have e : javelinStep acc line = javelinCore acc c rest line := by
      unfold javelinStep; rw [hl]
    rw [e]; exact javelinCore_inv acc c rest line h

/-- The whole classifier-output fold preserves the overlap invariant. -/
theorem foldl_javelinLine_inv (lines : List String) :
    ∀ acc : JvAcc,
      (∀ s, s ∈ acc.requires → s ∈ acc.defines → s = "JX.install" ∨ s = "JX.behavior") →
      ∀ s, s ∈ (lines.foldl javelinLine acc).requires →
        s ∈ (lines.foldl javelinLine acc).defines →
        s = "JX.install" ∨ s = "JX.behavior" := by
  induction lines with
  | nil => intro acc h; exact h
  | cons ln lines ih =>
    intro acc h
    rw [List.foldl_cons]
    exact ih _ (javelinStep_inv _ _ h)

/-- C1 counterexample: the javelin tag cannot set the id, so with the tag
list providesModule-then-javelin the final id is still determined by the
earlier providesModule value — changing that value changes the result even
though the last identity-family tag named by the claim is the javelin tag. -/
theorem c1_counterexample_javelin_does_not_set_id :
    (parseDocblockOptions jsBlank [("providesModule", "foo"), ("javelin", "bar")]).id =
      some "foo" ∧
    (parseDocblockOptions jsBlank [("providesModule", "baz"), ("javelin", "bar")]).id =
      some "baz" := by
  decide

/-- C1 (amended): tag pairs are processed strictly in source order and the
id is last-write-wins among the tags that actually set it — provides,
providesModule and providesLegacy; the javelin tag does not write the id.
For any split of the tag list around its last provides-family tag, the
final id is the one written by that tag. -/
theorem c1_last_identity_tag_wins (js : JS) (l r : List (String × String)) (t v : String)
    (ht : t = "provides" ∨ t = "providesModule" ∨ t = "providesLegacy")
    (hr : ∀ p ∈ r, p.1 ≠ "provides" ∧ p.1 ≠ "providesModule" ∧ p.1 ≠ "providesLegacy") :
    (parseDocblockOptions js (l ++ (t, v) :: r)).id = some (tagId t v) := by
  unfold parseDocblockOptions
  rw [List.foldl_append, List.foldl_cons]
  rw [foldl_applyTag_id_preserved r _ hr]
  exact applyTag_id_set _ t v ht

/-- C1 witness: a providesLegacy tag after a providesModule tag wins, with
a trailing css tag that does not disturb the id. -/
theorem c1_last_identity_tag_wins_witness :
    (("providesLegacy" : String) = "provides" ∨
      ("providesLegacy" : String) = "providesModule" ∨
      ("providesLegacy" : String) = "providesLegacy") ∧
    (∀ p ∈ ([("css", "x")] : List (String × String)),
      p.1 ≠ "provides" ∧ p.1 ≠ "providesModule" ∧ p.1 ≠ "providesLegacy") ∧
    (parseDocblockOptions jsBlank
        ([("providesModule", "foo")] ++ ("providesLegacy", "bar baz") :: [("css", "x")])).id =
      some (tagId "providesLegacy" "bar baz") :=
  ⟨by decide, by decide,
    c1_last_identity_tag_wins jsBlank [("providesModule", "foo")] [("css", "x")]
      "providesLegacy" "bar baz" (by decide) (by decide)⟩

/-- C2 counterexample: on the classifier lines of the claim, the reference
line with text Other.method does not make JX.Other required — the source
takes the text between the first and second dot, yielding JX.method. -/
theorem c2_counterexample_jx_other_not_required :
    "JX.Other" ∉ (javelinSymbolsCallback jsBlank jvOut).requiredJavelinSymbols := by
  decide

/-- C2 (amended): folding the three classifier lines plus-Widget,
question-Other.method, star-menu yields definedJavelinSymbols containing
JX.Widget and javelin-behavior-menu, requiredJavelinSymbols exactly
JX.install, JX.method and JX.behavior (the reference rule takes the text
between the first and second dot of the line), and final id
javelin-behavior-menu. -/
theorem c2_classifier_fold_example :
    "JX.Widget" ∈ (javelinSymbolsCallback jsBlank jvOut).definedJavelinSymbols ∧
    "javelin-behavior-menu" ∈ (javelinSymbolsCallback jsBlank jvOut).definedJavelinSymbols ∧
    (javelinSymbolsCallback jsBlank jvOut).requiredJavelinSymbols =
      ["JX.install", "JX.method", "JX.behavior"] ∧
    (javelinSymbolsCallback jsBlank jvOut).id = some "javelin-behavior-menu" := by
  decide

/-- C7: the failing input of the extension-matching bug — a two-character
path makes lastIndexOf return minus one, which equals length minus three,
so matchPath accepts a path that does not end in the dot-j-s extension
(contradicting the doc comment that only star-dot-j-s files match);
ordinary inputs behave as documented. -/
theorem c7_matchPath_two_char_bug :
    matchPath "ab" = true ∧ matchPath "a.js" = true ∧ matchPath "" = false ∧
    matchPath "x.txt" = false ∧ matchPath "a.jsx" = false := by
  decide

/-- C8 counterexample: a classifier line defining the unit named install
puts JX.install simultaneously into the defined and the required symbol
sets, because the defining case unconditionally re-adds the installer
primitive to requires after recording the definition. -/
theorem c8_counterexample_install_in_both :
    "JX.install" ∈ (javelinSymbolsCallback jsBlank "+install").definedJavelinSymbols ∧
    "JX.install" ∈ (javelinSymbolsCallback jsBlank "+install").requiredJavelinSymbols := by
  decide

/-- C8 (amended): for every classifier output, any symbol lying in both
requiredJavelinSymbols and definedJavelinSymbols is one of the two runtime
primitives JX.install or JX.behavior; apart from these the two sets are
disjoint. -/
theorem c8_overlap_only_primitives (js : JS) (output : String) (s : String)
    (h1 : s ∈ (javelinSymbolsCallback js output).requiredJavelinSymbols)
    (h2 : s ∈ (javelinSymbolsCallback js output).definedJavelinSymbols) :
    s = "JX.install" ∨ s = "JX.behavior" := by
  have h1' : s ∈ ((splitLines output).foldl javelinLine
      { defines := [], requires := [], id := js.id }).requires := h1
  have h2' : s ∈ ((splitLines output).foldl javelinLine
      { defines := [], requires := [], id := js.id }).defines := h2
  exact foldl_javelinLine_inv (splitLines output) _
    (fun t ht _ => absurd ht (List.not_mem_nil t)) s h1' h2'

/-- C8 witness: the overlap theorem applied at the install-defining output,
where JX.install is in both sets and is the installer primitive. -/
theorem c8_overlap_only_primitives_witness :
    ("JX.install" ∈ (javelinSymbolsCallback jsBlank "+install").requiredJavelinSymbols) ∧
    ("JX.install" ∈ (javelinSymbolsCallback jsBlank "+install").definedJavelinSymbols) ∧
    ("JX.install" = "JX.install" ∨ "JX.install" = "JX.behavior") :=
  ⟨by decide, by decide,
    c8_overlap_only_primitives jsBlank "+install" "JX.install" (by decide) (by decide)⟩

/-- C4 counterexample: with a docblock carrying an ignore option, the
neither-stage loader invokes its completion callback in the same
synchronous turn (the short-circuit calls it directly instead of through
process.nextTick). -/
theorem c4_counterexample_ignore_synchronous :
    (loadFromSource parseTagsIgnore (fun _ => []) extractExtraNeither
        "a.js" none "").calls.map Prod.fst = [false] := by
  rfl

/-- C4 (amended): for a loader with neither optional stage, every
ingestion whose docblock options do not contain ignore completes with
exactly one callback invocation, scheduled on a later event-loop turn;
an ignored file instead gets its callback synchronously. -/
theorem c4_nonignored_completion_async
    (parseTags : String → List (String × String)) (er : String → List String)
    (p : String) (cfg : Option ProjectConfiguration) (src : String)
    (h : "ignore" ∉ (docblockDescriptor parseTags p cfg src).options) :
    (loadFromSource parseTags er extractExtraNeither p cfg src).calls.map Prod.fst =
      [true] := by
  unfold loadFromSource
  rw [if_neg h]
  rfl

/-- C4 witness: a source with no docblock tags completes asynchronously. -/
theorem c4_nonignored_completion_async_witness :
    ("ignore" ∉ (docblockDescriptor (fun _ => []) "a.js" none "").options) ∧
    (loadFromSource (fun _ => []) (fun _ => []) extractExtraNeither
        "a.js" none "").calls.map Prod.fst = [true] :=
  ⟨by decide,
    c4_nonignored_completion_async (fun _ => []) (fun _ => []) "a.js" none "" (by decide)⟩

/-- C5: an ignore option short-circuits loadFromSource — the result does
not depend on the require extractor or on the extra pipeline, neither of
which runs, and the callback fires once, synchronously, with the
descriptor exactly as tag interpretation left it (so requiredModules holds
no entries from require extraction). -/
theorem c5_ignore_short_circuit
    (parseTags : String → List (String × String)) (er er' : String → List String)
    (ee ee' : JS → String → List (Bool × JS)) (p : String)
    (cfg : Option ProjectConfiguration) (src : String)
    (h : "ignore" ∈ (docblockDescriptor parseTags p cfg src).options) :
    loadFromSource parseTags er ee p cfg src = loadFromSource parseTags er' ee' p cfg src ∧
    (loadFromSource parseTags er ee p cfg src).usedRequireExtractor = false ∧
    (loadFromSource parseTags er ee p cfg src).usedExtractExtra = false ∧
    (loadFromSource parseTags er ee p cfg src).calls =
      [(false, docblockDescriptor parseTags p cfg src)] := by
  have e : ∀ (er'' : String → List String) (ee'' : JS → String → List (Bool × JS)),
      loadFromSource parseTags er'' ee'' p cfg src =
        { calls := [(false, docblockDescriptor parseTags p cfg src)],
          usedRequireExtractor := false, usedExtractExtra := false } := by
    intro er'' ee''
    unfold loadFromSource
    rw [if_pos h]
  rw [e er ee, e er' ee']
  exact ⟨rfl, rfl, rfl, rfl⟩

/-- C5 witness: the short-circuit theorem applied at a concrete ignored
docblock, with two different require extractors and extra pipelines. -/
theorem c5_ignore_short_circuit_witness :
    ("ignore" ∈ (docblockDescriptor parseTagsIgnore "a.js" none "").options) ∧
    (loadFromSource parseTagsIgnore (fun _ => ["a"]) extractExtraNeither "a.js" none "" =
      loadFromSource parseTagsIgnore (fun _ => ["b"]) (fun _ _ => []) "a.js" none "") ∧
    (loadFromSource parseTagsIgnore (fun _ => ["a"]) extractExtraNeither
        "a.js" none "").usedRequireExtractor = false ∧
    (loadFromSource parseTagsIgnore (fun _ => ["a"]) extractExtraNeither
        "a.js" none "").usedExtractExtra = false ∧
    (loadFromSource parseTagsIgnore (fun _ => ["a"]) extractExtraNeither
        "a.js" none "").calls = [(false, docblockDescriptor parseTagsIgnore "a.js" none "")] :=
  ⟨by decide,
    c5_ignore_short_circuit parseTagsIgnore (fun _ => ["a"]) (fun _ => ["b"])
      extractExtraNeither (fun _ _ => []) "a.js" none "" (by decide)⟩

/-- C6: when the compression routine reports an error to the
size-estimation stage, the completion callback is invoked zero times — the
zlib callback ignores err and throws evaluating buffer.length — while the
success path invokes it exactly once, asynchronously.  The exactly-once
completion contract is violated on the error path. -/
theorem c6_deflate_error_loses_callback :
    (loadFromSource (fun _ => []) (fun _ => [])
        (extractNetworkSize (fun _ => none)) "a.js" none "code").calls = [] ∧
    (loadFromSource (fun _ => []) (fun _ => [])
        (extractNetworkSize (fun _ => some 5)) "a.js" none "code").calls.map Prod.fst =
      [true] :=
  ⟨rfl, rfl⟩

/-- C9 counterexample: with a configuration present and a source whose
docblock is empty but whose text contains a require call, the delivered
descriptor's requiredModules is the extracted require list, not empty. -/
theorem c9_counterexample_requires_extracted :
    ((loadFromSource (fun _ => []) (fun _ => ["x"]) extractExtraNeither "a.js"
        (some { resolveID := fun _ => "A" }) "src").calls.map
      (fun c => c.2.requiredModules)) = [["x"]] ∧
    (["x"] : List String) ≠ ([] : List String) :=
  ⟨rfl, by decide⟩

/-- C9 (amended): for a no-docblock source under the neither-stage loader,
the delivered descriptor has empty requiredCSS, requiredLegacyComponents
and options; isModule is true exactly when a configuration was supplied;
and requiredModules is empty without a configuration and exactly the
extracted require calls with one. -/
theorem c9_no_docblock_descriptor
    (parseTags : String → List (String × String)) (er : String → List String)
    (p : String) (cfg : Option ProjectConfiguration) (src : String)
    (h : parseTags src = []) :
    ∃ d : JS, (loadFromSource parseTags er extractExtraNeither p cfg src).calls =
        [(true, d)] ∧
      d.requiredCSS = [] ∧ d.requiredLegacyComponents = [] ∧ d.options = [] ∧
      d.isModule = cfg.isSome ∧
      d.requiredModules = (if cfg.isSome then er src else []) := by
  cases cfg with
  | none =>
    refine ⟨{ path := p }, ?_, rfl, rfl, rfl, rfl, rfl⟩
    have e2 : docblockDescriptor parseTags p none src = { path := p } := by
      unfold docblockDescriptor
      rw [h]
      rfl
    unfold loadFromSource
    rw [e2]
    rw [if_neg (List.not_mem_nil "ignore" : "ignore" ∉ ({ path := p } : JS).options)]
    rfl
  | some c =>
    refine ⟨{ path := p, isModule := true, id := some (c.resolveID p),
              requiredModules := er src }, ?_, rfl, rfl, rfl, rfl, rfl⟩
    have e2 : docblockDescriptor parseTags p (some c) src =
        { path := p, isModule := true } := by
      unfold docblockDescriptor
      rw [h]
      rfl
    unfold loadFromSource
    rw [e2]
    rw [if_neg (List.not_mem_nil "ignore" :
      "ignore" ∉ ({ path := p, isModule := true } : JS).options)]
    rfl

/-- C9 witness: the amended theorem at a concrete configured loader whose
require extractor finds one call. -/
theorem c9_no_docblock_descriptor_witness :
    ((fun _ : String => ([] : List (String × String))) "s" = []) ∧
    (∃ d : JS, (loadFromSource (fun _ => []) (fun _ => ["x"]) extractExtraNeither "b.js"
        (some { resolveID := fun _ => "B" }) "s").calls = [(true, d)] ∧
      d.requiredCSS = [] ∧ d.requiredLegacyComponents = [] ∧ d.options = [] ∧
      d.isModule = (some { resolveID := fun _ => "B" } : Option ProjectConfiguration).isSome ∧
      d.requiredModules =
        (if (some { resolveID := fun _ => "B" } : Option ProjectConfiguration).isSome then
          (fun _ : String => ["x"]) "s" else [])) :=
  ⟨rfl, c9_no_docblock_descriptor (fun _ => []) (fun _ => ["x"]) "b.js"
    (some { resolveID := fun _ => "B" }) "s" rfl⟩

/-- C10: when the docblock has a jsx tag with nonempty value (and no later
jsx tag) together with an option tag carrying the ignore token, the
short-circuited ingestion still delivers every jsx effect: the ignore check
runs only after full tag interpretation and undoes none of its mutations. -/
theorem c10_jsx_effects_survive_ignore
    (parseTags : String → List (String × String)) (er : String → List String)
    (ee : JS → String → List (Bool × JS)) (p : String)
    (cfg : Option ProjectConfiguration) (src : String)
    (l r : List (String × String)) (v ov : String)
    (hsplit : parseTags src = l ++ ("jsx", v) :: r)
    (hv : v ≠ "")
    (hnojsx : ∀ q ∈ r, q.1 ≠ "jsx")
    (hig : ("option", ov) ∈ parseTags src)
    (htok : "ignore" ∈ splitWs ov) :
    (loadFromSource parseTags er ee p cfg src).calls =
      [(false, docblockDescriptor parseTags p cfg src)] ∧
    (loadFromSource parseTags er ee p cfg src).usedRequireExtractor = false ∧
    (loadFromSource parseTags er ee p cfg src).usedExtractExtra = false ∧
    (docblockDescriptor parseTags p cfg src).isJSXEnabled = true ∧
    (docblockDescriptor parseTags p cfg src).jsxDOMImplementor = some v ∧
    v ∈ (docblockDescriptor parseTags p cfg src).requiredModules := by
  have hign : "ignore" ∈ (docblockDescriptor parseTags p cfg src).options :=
    parseDocblockOptions_option_mem (parseTags src) (initJS p cfg) ov "ignore" hig htok
  have e : docblockDescriptor parseTags p cfg src =
      r.foldl applyTag (applyTag (l.foldl applyTag (initJS p cfg)) ("jsx", v)) := by
    unfold docblockDescriptor parseDocblockOptions
    rw [hsplit, List.foldl_append, List.foldl_cons]
  have ej : applyTag (l.foldl applyTag (initJS p cfg)) ("jsx", v) =
      tagJsx (l.foldl applyTag (initJS p cfg)) v := rfl
  refine ⟨?_, ?_, ?_, ?_, ?_, ?_⟩
  · unfold loadFromSource
    rw [if_pos hign]
  · unfold loadFromSource
    rw [if_pos hign]
  · unfold loadFromSource
    rw [if_pos hign]
  · rw [e]
    apply foldl_applyTag_isJSXEnabled_mono
    rw [ej]
    exact tagJsx_isJSXEnabled _ v
  · rw [e, foldl_applyTag_jsxDOM_preserved r _ hnojsx, ej]
    exact tagJsx_jsxDOM _ v
  · rw [e]
    apply foldl_applyTag_requiredModules_mono
    rw [ej]
    exact tagJsx_requiredModules _ v hv

/-- C10 witness: a jsx tag followed by an ignore option, under the
neither-stage loader. -/
theorem c10_jsx_effects_survive_ignore_witness :
    (parseTagsJsxIgnore "" = [] ++ ("jsx", "X") :: [("option", "ignore")]) ∧
    (("X" : String) ≠ "") ∧
    (∀ q ∈ ([("option", "ignore")] : List (String × String)), q.1 ≠ "jsx") ∧
    (("option", "ignore") ∈ parseTagsJsxIgnore "") ∧
    ("ignore" ∈ splitWs "ignore") ∧
    ((loadFromSource parseTagsJsxIgnore (fun _ => []) extractExtraNeither
        "a.js" none "").calls =
      [(false, docblockDescriptor parseTagsJsxIgnore "a.js" none "")] ∧
    (loadFromSource parseTagsJsxIgnore (fun _ => []) extractExtraNeither
        "a.js" none "").usedRequireExtractor = false ∧
    (loadFromSource parseTagsJsxIgnore (fun _ => []) extractExtraNeither
        "a.js" none "").usedExtractExtra = false ∧
    (docblockDescriptor parseTagsJsxIgnore "a.js" none "").isJSXEnabled = true ∧
    (docblockDescriptor parseTagsJsxIgnore "a.js" none "").jsxDOMImplementor = some "X" ∧
    "X" ∈ (docblockDescriptor parseTagsJsxIgnore "a.js" none "").requiredModules) :=
  ⟨rfl, by decide, by decide, by decide, by decide,
    c10_jsx_effects_survive_ignore parseTagsJsxIgnore (fun _ => []) extractExtraNeither
      "a.js" none "" [] [("option", "ignore")] "X" "ignore" rfl (by decide) (by decide)
      (by decide) (by decide)⟩

/-- C3: postProcess maps every resource in place, preserving list position
and all fields except requiredModules; each entry beginning with a dot is
joined against the owning resource's directory and looked up first as
relative + .js and then as relative + /index.js, a found resource's id
replaces the entry at its position, an unresolved entry is kept verbatim,
and entries not beginning with a dot are untouched.  In the concrete build
of the claim, the entry ./foo of bar.js is rewritten to Foo through the
directory-index fallback, and ./missing is left unchanged. -/
theorem c3_postProcess_relative_resolution :
    (∀ (m rs : List Resource) (j : Nat),
      (postProcess m rs)[j]? = rs[j]?.map (fun r =>
        { r with requiredModules := r.requiredModules.map (fun req =>
            if req.data.head? = some '.' then
              (((getResourceByPath m (posixJoin (posixDirname r.path) req ++ ".js")).orElse
                  (fun _ => getResourceByPath m
                    (posixJoin (posixDirname r.path) req ++ "/index.js"))).elim
                req (fun res => res.id))
            else req) })) ∧
    postProcess [fooRes, barFoo] [fooRes, barFoo] =
      [fooRes, { path := "bar.js", id := "Bar", requiredModules := ["Foo"] }] ∧
    postProcess [fooRes, barMissing] [fooRes, barMissing] = [fooRes, barMissing] := by
  refine ⟨?_, by decide, by decide⟩
  intro m rs j
  exact List.getElem?_map _ _ _
